import Mathlib

/-!
# Minecraft-Wake-on-Connect: container lifecycle cache and gateway handler

A shallow embedding of `src/docker/dockerManager.go`, `src/customServer/serverPing.go`
and `src/customServer/server.go`.

Conventions of the embedding.

* Go `string` is `String`; Go `int`, `int32` are `Int` (no arithmetic is performed on them
  by the embedded code, so no wrap-around can occur); byte slices are `List Nat`.
* The container runtime, the sockets and the packet codec are the environment.  Their
  answers are oracles collected in `Env`; every call the code makes is appended, in program
  order, to a trace of `Action`s.
* Mutable receivers (`*DockerManager`, the connection) are passed explicitly and returned.
* The reader/writer locks only serialise access to a single field and are not represented.
-/

namespace docker

/-- The fields of the runtime's container summary that the manager reads. -/
structure Container where
  ID : String
  Names : List String
  State : String
  deriving DecidableEq, Repr

/-- Calls made to the container runtime client. -/
inductive RuntimeCall where
  | ContainerList (all : Bool) (nameFilter : String)
  | ContainerStart (containerID : String)
  deriving DecidableEq, Repr

/-- The answers of the container runtime. -/
structure Runtime where
  /-- Outcome of `client.ContainerList`: an error text or the listed containers. -/
  containerList : Except String (List Container)
  /-- Outcome of `client.ContainerStart` for a container id: `none` is success. -/
  containerStart : String → Option String

/-- The mutable fields of `DockerManager` (the client handle is the `Runtime`). -/
structure DockerManager where
  containerName : String
  containerID : String
  containerStatus : String
  deriving DecidableEq, Repr

/-- The manager as `NewDockerManager` builds it. -/
def NewDockerManager (containerName : String) : DockerManager :=
  { containerName := containerName, containerID := "", containerStatus := "unknown" }

def DockerManager.GetStatus (dm : DockerManager) : String :=
  dm.containerStatus

def DockerManager.setStatus (dm : DockerManager) (status : String) : DockerManager :=
  { dm with containerStatus := status }

/-- The inner loop `for _, name := range c.Names`: does some name equal `"/"+containerName`? -/
def DockerManager.UpdateContainerInfo.names (dm : DockerManager) : List String → Bool
  | [] => false
  | name :: rest =>
    if name = "/" ++ dm.containerName then true
    else DockerManager.UpdateContainerInfo.names dm rest

/-- The outer loop `for _, c := range containers`, with the early `return true, nil`. -/
def DockerManager.UpdateContainerInfo.containers (dm : DockerManager) :
    List Container → Option DockerManager
  | [] => none
  | c :: rest =>
    if DockerManager.UpdateContainerInfo.names dm c.Names then
      some ({ dm with containerID := c.ID }.setStatus c.State)
    else DockerManager.UpdateContainerInfo.containers dm rest

/-- Result of a manager method: the Go return values, the manager afterwards and the
runtime calls issued. -/
structure Outcome (α : Type) where
  ret : α
  dm : DockerManager
  calls : List RuntimeCall

/-- Method `UpdateContainerInfo`: returns `(exists, err)`. -/
def DockerManager.UpdateContainerInfo (dm : DockerManager) (rt : Runtime) :
    Outcome (Bool × Option String) :=
  let calls := [RuntimeCall.ContainerList true dm.containerName]
  match rt.containerList with
  | .error err => ⟨(false, some ("failed to list containers: " ++ err)), dm, calls⟩
  | .ok containers =>
    match DockerManager.UpdateContainerInfo.containers dm containers with
    | some dm1 => ⟨(true, none), dm1, calls⟩
    | none => ⟨(false, none), dm.setStatus "notCreated", calls⟩

/-- Method `Start`: returns the error, `none` standing for `nil`. -/
def DockerManager.Start (dm : DockerManager) (rt : Runtime) : Outcome (Option String) :=
  let status := dm.GetStatus
  if status ≠ "running" then
    match rt.containerStart dm.containerID with
    | some err =>
      ⟨some ("failed to start container " ++ dm.containerName ++ ": " ++ err), dm,
        [RuntimeCall.ContainerStart dm.containerID]⟩
    | none => ⟨none, dm.setStatus "running", [RuntimeCall.ContainerStart dm.containerID]⟩
  else ⟨none, dm, []⟩

/-- Consecutive `Start` calls, the i-th one answered by the i-th runtime of the list:
the errors returned, the manager at the end and all runtime calls issued. -/
def DockerManager.StartMany (dm : DockerManager) : List Runtime → Outcome (List (Option String))
  | [] => ⟨[], dm, []⟩
  | rt :: rts =>
    let first := dm.Start rt
    let later := DockerManager.StartMany first.dm rts
    ⟨first.ret :: later.ret, later.dm, first.calls ++ later.calls⟩

/-- A manager whose cache says the container runs. -/
def sample.running : DockerManager :=
  { containerName := "minecraft", containerID := "4f2a", containerStatus := "running" }

/-- A manager whose cache says the container has exited. -/
def sample.exited : DockerManager :=
  { containerName := "minecraft", containerID := "4f2a", containerStatus := "exited" }

/-- A container list with a look-alike name before the configured container. -/
def sample.listed : List Container :=
  [ { ID := "91bc", Names := ["/minecraft-backup"], State := "running" },
    { ID := "4f2a", Names := ["/minecraft"], State := "exited" } ]

/-- A runtime that returns `sample.listed` and accepts every start command. -/
def sample.rtUp : Runtime :=
  { containerList := .ok sample.listed
    containerStart := fun _ => none }

/-- A runtime that lists nothing and refuses every start command. -/
def sample.rtDown : Runtime :=
  { containerList := .ok []
    containerStart := fun _ => some "daemon unreachable" }

end docker

namespace pk

/-- A framed packet: its discriminator and its payload bytes. -/
structure Packet where
  ID : Int
  Data : List Nat
  deriving DecidableEq, Repr

/-- Function `pk.Marshal(id, fields...)`: the payload is the concatenation of the encoded fields. -/
def Marshal (id : Int) (fields : List (List Nat)) : Packet :=
  { ID := id, Data := fields.flatten }

end pk

namespace packetid

/-- Status sub-protocol discriminators of the packet-id table. -/
def StatusResponse : Int := 0

def StatusPongResponse : Int := 1

/-- Login sub-protocol discriminators of the packet-id table. -/
def LoginStart : Int := 0

def LoginDisconnect : Int := 0

end packetid

namespace chat

/-- The fields of a chat message the gateway sets: text, colour and appended messages. -/
inductive Message where
  | mk (Text : String) (Color : String) (Extra : List Message)

def Message.Text : Message → String
  | .mk t _ _ => t

def Message.Color : Message → String
  | .mk _ c _ => c

def Message.Extra : Message → List Message
  | .mk _ _ e => e

/-- Method `m.Append(extraMsg...)` adds the messages to `Extra`. -/
def Message.Append (m : Message) (extraMsg : List Message) : Message :=
  .mk m.Text m.Color (m.Extra ++ extraMsg)

end chat

namespace customServer

open docker

/-- A dial error as `AwaitDial` inspects it: whether it is a `*net.OpError` and the text of
the wrapped error. -/
structure NetError where
  isOpError : Bool
  text : String
  deriving DecidableEq, Repr

/-- Outcome of one `net.DialTimeout`. -/
inductive DialAttempt where
  | connected
  | failed (err : NetError)
  deriving DecidableEq, Repr

/-- The errors `AwaitDial` returns. -/
inductive DialError where
  /-- Value `errors.New("AwaitDial: tried to connect too many times")`. -/
  | tooManyTimes
  /-- Value `ctx.Err()` once the overall deadline has passed. -/
  | deadlineExceeded
  /-- The error of a non-retryable attempt. -/
  | dial (err : NetError)
  deriving DecidableEq, Repr

/-- Function `strings.Contains` on character lists. -/
def stringsContains : List Char → List Char → Bool
  | [], sub => sub.isEmpty
  | c :: cs, sub => sub.isPrefixOf (c :: cs) || stringsContains cs sub

/-- The retry test of `AwaitDial`: an `*net.OpError` whose wrapped error mentions a timeout
or a refused connection. -/
def retryable (err : NetError) : Bool :=
  err.isOpError &&
    (stringsContains err.text.toList "i/o timeout".toList ||
      stringsContains err.text.toList "connection refused".toList)

/-- The `for` loop of `AwaitDial` entered with `i` attempts made.  `attempt k` is the outcome
of the k-th `net.DialTimeout` (counted from 1) and `expired i` tells whether `ctx.Done()` is
ready when the `select` is reached after `i` attempts.  Returns the result and the
number of attempts made. -/
def AwaitDial.loop (attempt : Nat → DialAttempt) (expired : Nat → Bool) (i : Nat) :
    Except DialError Unit × Nat :=
  if i > 1000 then (.error .tooManyTimes, i)
  else if expired i then (.error .deadlineExceeded, i)
  else
    match attempt (i + 1) with
    | .failed err =>
      if retryable err then AwaitDial.loop attempt expired (i + 1)
      else (.error (.dial err), i + 1)
    | .connected => (.ok (), i + 1)
termination_by 1001 - i
decreasing_by all_goals omega

/-- Function `AwaitDial`: the loop started with `i := 0`. -/
def AwaitDial (attempt : Nat → DialAttempt) (expired : Nat → Bool) :
    Except DialError Unit × Nat :=
  AwaitDial.loop attempt expired 0

/-- The listing provider interface `ListPingHandler` (its read methods). -/
structure ListPingHandler where
  Name : String
  Protocol : Int → Int
  Description : chat.Message
  FavIcon : String

/-- Type `PingInfo`, the one implementation of the listing provider. -/
structure PingInfo where
  name : String
  protocol : Int
  description : chat.Message
  favicon : String

def NewPingInfo (name : String) (protocol : Int) (motd : chat.Message) : PingInfo :=
  { name := name, protocol := protocol, description := motd, favicon := "" }

def PingInfo.UpdateDetails (_p : PingInfo) (name : String) (protocol : Int)
    (description : chat.Message) (favicon : String) : PingInfo :=
  { name := name, protocol := protocol, description := description, favicon := favicon }

def PingInfo.Name (p : PingInfo) : String := p.name

def PingInfo.Protocol (p : PingInfo) (_clientProtocol : Int) : Int := p.protocol

def PingInfo.FavIcon (p : PingInfo) : String := p.favicon

def PingInfo.Description (p : PingInfo) : chat.Message := p.description

/-- A `PingInfo` seen through the interface. -/
def PingInfo.handler (p : PingInfo) : ListPingHandler :=
  { Name := p.Name, Protocol := p.Protocol, Description := p.Description,
    FavIcon := p.FavIcon }

structure PlayerSample where
  Name : String
  ID : String

/-- The anonymous struct `list` of `listResp`. -/
structure ListResp where
  VersionName : String
  VersionProtocol : Int
  PlayersMax : Int
  PlayersOnline : Int
  PlayersSample : List PlayerSample
  Description : chat.Message
  FavIcon : String

/-- The `Server`: the embedded listing provider (the container handle lives in `World`). -/
structure Server where
  handler : ListPingHandler

/-- The struct `listResp` fills in before serialising it. -/
def Server.listing (s : Server) (clientProtocol : Int) : ListResp :=
  { VersionName := s.handler.Name
    VersionProtocol := s.handler.Protocol clientProtocol
    PlayersMax := 0
    PlayersOnline := 0
    PlayersSample := []
    Description := s.handler.Description
    FavIcon := s.handler.FavIcon }

/-- Direction of a byte-copy loop. -/
inductive Direction where
  | clientToServer
  | serverToClient
  deriving DecidableEq, Repr

/-- The calls the handler makes, in program order. -/
inductive Action where
  /-- Call `conn.ReadPacket` on the client connection, with what it returned. -/
  | clientRead (r : Except String pk.Packet)
  /-- Call `conn.WritePacket` on the client connection, with whether it succeeded. -/
  | clientWrite (p : pk.Packet) (ok : Bool)
  /-- Call `conn.Close` on the client connection. -/
  | clientClose
  /-- A call to the container runtime. -/
  | runtime (c : RuntimeCall)
  /-- Entry into `acceptListPing`. -/
  | acceptListPing (clientProtocol : Int)
  /-- Entry into `proxyConn`. -/
  | proxyConn (dstEndpoint : String) (initialClientPackets : List pk.Packet)
  /-- Call `AwaitDial(endpoint, timeout)` with its result (timeout in seconds). -/
  | awaitDial (endpoint : String) (timeoutSeconds : Nat) (r : Except DialError Unit)
  /-- A `go func() { io.Copy ... }()` statement. -/
  | startCopy (d : Direction)
  /-- Call `p.Pack(server, threshold)` on the backend connection, with whether it succeeded. -/
  | backendWrite (p : pk.Packet) (threshold : Int) (ok : Bool)
  /-- A receive `<-bits` waiting for one copy loop to end. -/
  | awaitCopy
  /-- Call `server.Close` on the backend connection. -/
  | backendClose

/-- A read or a write that returned an error. -/
def Action.failed : Action → Bool
  | .clientRead (.error _) => true
  | .clientWrite _ false => true
  | .backendWrite _ _ false => true
  | _ => false

def Action.isClientRead : Action → Bool
  | .clientRead _ => true
  | _ => false

def Action.isClientWrite : Action → Bool
  | .clientWrite _ _ => true
  | _ => false

/-- Actions of the local status responder: its entry marker. -/
def Action.isStatusResponder : Action → Bool
  | .acceptListPing _ => true
  | _ => false

/-- Actions of the relay: its entry marker, the dial and everything done on the backend
connection. -/
def Action.isRelay : Action → Bool
  | .proxyConn _ _ => true
  | .awaitDial _ _ _ => true
  | .startCopy _ => true
  | .backendWrite _ _ _ => true
  | .awaitCopy => true
  | .backendClose => true
  | _ => false

/-- The packet and threshold of a write to the backend. -/
def Action.backendPacket : Action → Option (pk.Packet × Int)
  | .backendWrite p threshold _ => some (p, threshold)
  | _ => none

/-- The answers of everything outside the handler. -/
structure Env where
  /-- The container runtime. -/
  rt : Runtime
  /-- Outcome of the k-th write to the client (counted from 0). -/
  clientWriteOk : Nat → Bool
  /-- Outcome of the k-th packet write to the backend (counted from 0). -/
  backendWriteOk : Nat → Bool
  /-- Outcome of the k-th connection attempt of `AwaitDial` (counted from 1). -/
  attempt : Nat → DialAttempt
  /-- Whether the dial deadline is seen expired after `i` attempts. -/
  expired : Nat → Bool
  /-- Result of `Scan` on the handshake fields: protocol version and intention. -/
  scanHandshake : pk.Packet → Option (Int × Int)
  /-- Result of `Scan` on the login-start fields: player name and id. -/
  scanLoginStart : pk.Packet → Option (String × String)
  /-- Result of `json.Marshal` on the listing. -/
  jsonMarshal : ListResp → Except String (List Nat)
  /-- Field encoding of a `pk.String`. -/
  encodeString : List Nat → List Nat
  /-- Field encoding of a `chat.Message`. -/
  encodeMessage : chat.Message → List Nat

/-- The state a connection handler works on: the shared container handle, what the client
socket will deliver to the successive reads, the number of writes made so far on each
socket and the trace of calls. -/
structure World where
  dm : DockerManager
  incoming : List (Except String pk.Packet)
  clientWrites : Nat
  backendWrites : Nat
  trace : List Action

/-- A fresh connection: nothing written, nothing traced. -/
def World.init (dm : DockerManager) (incoming : List (Except String pk.Packet)) : World :=
  { dm := dm, incoming := incoming, clientWrites := 0, backendWrites := 0, trace := [] }

def World.log (w : World) (a : Action) : World :=
  { w with trace := w.trace ++ [a] }

/-- Method `conn.ReadPacket`: the next delivery of the client socket; an exhausted socket is at
end of stream. -/
def World.ReadPacket (w : World) : Except String pk.Packet × World :=
  match w.incoming with
  | [] => (.error "EOF", w.log (.clientRead (.error "EOF")))
  | r :: rest => (r, { w with incoming := rest }.log (.clientRead r))

/-- Method `conn.WritePacket` on the client connection: returns whether the write succeeded. -/
def World.WritePacket (env : Env) (w : World) (p : pk.Packet) : Bool × World :=
  let ok := env.clientWriteOk w.clientWrites
  (ok, { w with clientWrites := w.clientWrites + 1 }.log (.clientWrite p ok))

/-- Method `p.Pack(server, threshold)` on the backend connection. -/
def World.Pack (env : Env) (w : World) (p : pk.Packet) (threshold : Int) : Bool × World :=
  let ok := env.backendWriteOk w.backendWrites
  (ok, { w with backendWrites := w.backendWrites + 1 }.log (.backendWrite p threshold ok))

/-- Method `listResp`: the listing, serialised. -/
def Server.listResp (env : Env) (s : Server) (clientProtocol : Int) :
    Except String (List Nat) :=
  env.jsonMarshal (s.listing clientProtocol)

/-- One iteration of the loop of `acceptListPing`: `true` when the loop goes on, `false`
after a `return`. -/
def Server.acceptListPing.body (env : Env) (s : Server) (clientProtocol : Int) (w : World) :
    Bool × World :=
  match w.ReadPacket with
  | (.error _, w1) => (false, w1)
  | (.ok p, w1) =>
    if p.ID = packetid.StatusResponse then
      match s.listResp env clientProtocol with
      | .error _ => (false, w1)
      | .ok resp =>
        let (ok, w2) := w1.WritePacket env (pk.Marshal 0x00 [env.encodeString resp])
        (ok, w2)
    else if p.ID = packetid.StatusPongResponse then
      let (ok, w2) := w1.WritePacket env p
      (ok, w2)
    else (true, w1)

/-- The loop `for i := 0; i < 2; i++` of `acceptListPing`, with `n` iterations left. -/
def Server.acceptListPing.loop (env : Env) (s : Server) (clientProtocol : Int) :
    Nat → World → World
  | 0, w => w
  | n + 1, w =>
    match Server.acceptListPing.body env s clientProtocol w with
    | (false, w1) => w1
    | (true, w1) => Server.acceptListPing.loop env s clientProtocol n w1

def Server.acceptListPing (env : Env) (s : Server) (clientProtocol : Int) (w : World) :
    World :=
  Server.acceptListPing.loop env s clientProtocol 2 (w.log (.acceptListPing clientProtocol))

/-- The loop `for _, p := range initialClientPackets` of `proxyConn`: `false` when a write
failed and the function returns its error. -/
def proxyConn.replay (env : Env) : List pk.Packet → World → Bool × World
  | [], w => (true, w)
  | p :: rest, w =>
    match w.Pack env p (-1) with
    | (false, w1) => (false, w1)
    | (true, w1) => proxyConn.replay env rest w1

/-- The "server is starting" message of `proxyConn`. -/
def proxyConn.startingMsg : chat.Message :=
  .mk ("Server is starting. Please reconnect in a moment.\n\n" ++
    "If the server never starts, there may be a server issue.") "yellow" []

/-- Function `proxyConn`: returns the error (`none` for `nil`). -/
def proxyConn (env : Env) (w : World) (dstEndpoint : String)
    (initialClientPackets : List pk.Packet) : Option String × World :=
  let w0 := w.log (.proxyConn dstEndpoint initialClientPackets)
  let r := (AwaitDial env.attempt env.expired).1
  let w1 := w0.log (.awaitDial dstEndpoint 25 r)
  match r with
  | .error _ =>
    let msg := proxyConn.startingMsg
    let (_, w2) := w1.WritePacket env (pk.Marshal packetid.LoginDisconnect [env.encodeMessage msg])
    (none, w2)
  | .ok _ =>
    -- `defer server.Close()` runs on both returns below
    let w2 := w1.log (.startCopy .clientToServer)
    let w3 := w2.log (.startCopy .serverToClient)
    match proxyConn.replay env initialClientPackets w3 with
    | (false, w4) => (some "pack", w4.log .backendClose)
    | (true, w4) =>
      let w5 := w4.log .awaitCopy
      let w6 := w5.log .awaitCopy
      (none, w6.log .backendClose)

/-- The disconnect message of the login branch when the container cannot be started. -/
def Server.AcceptConnMC.failedMsg : chat.Message :=
  (chat.Message.mk "Remote Server Error:" "red" []).Append
    [chat.Message.mk " Failed to start server." "white" []]

/-- Call `s.DockerHandle.UpdateContainerInfo(ctx)` on the shared handle, results discarded. -/
def World.refresh (env : Env) (w : World) : World :=
  let o := w.dm.UpdateContainerInfo env.rt
  { w with dm := o.dm, trace := w.trace ++ o.calls.map Action.runtime }

/-- Call `s.DockerHandle.Start(ctx)` on the shared handle. -/
def World.Start (env : Env) (w : World) : Option String × World :=
  let o := w.dm.Start env.rt
  (o.ret, { w with dm := o.dm, trace := w.trace ++ o.calls.map Action.runtime })

/-- The body of `AcceptConnMC` up to its `return`s; the deferred `conn.Close()` follows. -/
def Server.AcceptConnMC.body (env : Env) (s : Server) (w : World)
    (downstreamMcEndpoint : String) : World :=
  match w.ReadPacket with
  | (.error _, w1) => w1
  | (.ok handshakePacket, w1) =>
    match env.scanHandshake handshakePacket with
    | none => w1
    | some (protocol, intention) =>
      let w2 := w1.refresh env
      if intention = 0x01 then
        if w2.dm.GetStatus = "running" then
          (proxyConn env w2 downstreamMcEndpoint [handshakePacket]).2
        else
          s.acceptListPing env protocol w2
      else if intention = 0x02 then
        match w2.ReadPacket with
        | (.error _, w3) => w3
        | (.ok loginStartPacket, w3) =>
          if loginStartPacket.ID ≠ packetid.LoginStart then w3
          else
            match env.scanLoginStart loginStartPacket with
            | none => w3
            | some _ =>
              let started : Option String × World :=
                if w3.dm.GetStatus ≠ "running" then w3.Start env else (none, w3)
              match started with
              | (some _, w4) =>
                let msg := Server.AcceptConnMC.failedMsg
                (w4.WritePacket env
                  (pk.Marshal packetid.LoginDisconnect [env.encodeMessage msg])).2
              | (none, w4) =>
                (proxyConn env w4 downstreamMcEndpoint [handshakePacket, loginStartPacket]).2
      else w2

def Server.AcceptConnMC (env : Env) (s : Server) (w : World)
    (downstreamMcEndpoint : String) : World :=
  (Server.AcceptConnMC.body env s w downstreamMcEndpoint).log .clientClose

/-- A fresh connection once its first packet has been read and the container state
refreshed, as `AcceptConnMC` does before it branches on the intention. -/
def World.afterHandshake (env : Env) (dm : DockerManager)
    (incoming : List (Except String pk.Packet)) : World :=
  (World.init dm incoming).ReadPacket.2.refresh env

/-- A handshake payload: protocol 769, address "mc", port 25565, intention status. -/
def sample.handshakeStatus : pk.Packet :=
  { ID := 0, Data := [129, 6, 2, 109, 99, 99, 221, 1] }

/-- The same handshake with intention login. -/
def sample.handshakeLogin : pk.Packet :=
  { ID := 0, Data := [129, 6, 2, 109, 99, 99, 221, 2] }

/-- A login-start payload for the player "Al". -/
def sample.loginStart : pk.Packet :=
  { ID := 0, Data := [2, 65, 108, 0, 0, 0, 0, 0, 0, 0, 0, 0, 0, 0, 0, 0, 0, 0, 7] }

/-- A stand-in for the handshake decoder: it accepts the two sample handshakes. -/
def sample.scanHandshake (p : pk.Packet) : Option (Int × Int) :=
  if p.Data = [129, 6, 2, 109, 99, 99, 221, 1] then some (769, 1)
  else if p.Data = [129, 6, 2, 109, 99, 99, 221, 2] then some (769, 2)
  else none

/-- A stand-in for the login-start decoder: it accepts the sample login-start. -/
def sample.scanLoginStart (p : pk.Packet) : Option (String × String) :=
  if p.Data = [2, 65, 108, 0, 0, 0, 0, 0, 0, 0, 0, 0, 0, 0, 0, 0, 0, 0, 7] then
    some ("Al", "00000000-0000-0000-0000-000000000007")
  else none

/-- An environment where the container can be started, the backend accepts the first
connection attempt and every write succeeds. -/
def sample.envUp : Env :=
  { rt := docker.sample.rtUp
    clientWriteOk := fun _ => true
    backendWriteOk := fun _ => true
    attempt := fun _ => .connected
    expired := fun _ => false
    scanHandshake := sample.scanHandshake
    scanLoginStart := sample.scanLoginStart
    jsonMarshal := fun l => .ok (l.VersionName.toList.map Char.toNat)
    encodeString := fun b => b.length :: b
    encodeMessage := fun m => m.Text.toList.map Char.toNat }

/-- An environment where the container exists nowhere and cannot be started. -/
def sample.envDown : Env :=
  { sample.envUp with rt := docker.sample.rtDown }

/-- The error of a dial that is not retried. -/
def sample.noRoute : NetError :=
  { isOpError := true, text := "connect: no route to host" }

/-- An environment where the first connection attempt fails with `sample.noRoute`. -/
def sample.envNoRoute : Env :=
  { sample.envUp with attempt := fun _ => .failed sample.noRoute }

/-- The error of a dial to a port nobody listens on yet: it is retried. -/
def sample.refused : NetError :=
  { isOpError := true, text := "connect: connection refused" }

/-- A backend that refuses every connection attempt. -/
def sample.alwaysRefused : Nat → DialAttempt :=
  fun _ => .failed sample.refused

/-- A backend that refuses the first 1000 connection attempts and accepts the later ones. -/
def sample.refusedThenUp : Nat → DialAttempt :=
  fun k => if k ≤ 1000 then .failed sample.refused else .connected

/-- A deadline that is never seen expired. -/
def sample.neverExpired : Nat → Bool :=
  fun _ => false

end customServer

namespace docker

/-- Names scanned by the inner loop match exactly when the target is among them. -/
theorem names_iff (dm : DockerManager) (names : List String) :
    DockerManager.UpdateContainerInfo.names dm names = true ↔
      ("/" ++ dm.containerName) ∈ names := by
  induction names with
  | nil => simp [DockerManager.UpdateContainerInfo.names]
  | cons n rest ih =>
    unfold DockerManager.UpdateContainerInfo.names
    by_cases h : n = "/" ++ dm.containerName
    · simp [h]
    · simp only [h, if_false, ih, List.mem_cons]
      constructor
      · intro hm; exact Or.inr hm
      · rintro (hm | hm)
        · exact absurd hm.symm h
        · exact hm

/-- The outer loop finds nothing exactly when no listed container carries the target name. -/
theorem containers_none_iff (dm : DockerManager) (cs : List Container) :
    DockerManager.UpdateContainerInfo.containers dm cs = none ↔
      ∀ c ∈ cs, ("/" ++ dm.containerName) ∉ c.Names := by
  induction cs with
  | nil => simp [DockerManager.UpdateContainerInfo.containers]
  | cons c rest ih =>
    unfold DockerManager.UpdateContainerInfo.containers
    by_cases h : DockerManager.UpdateContainerInfo.names dm c.Names = true
    · have hm := (names_iff dm c.Names).1 h
      simp [h, hm]
    · have hm : ("/" ++ dm.containerName) ∉ c.Names := fun hm => h ((names_iff dm c.Names).2 hm)
      simp [h, ih, hm]

/-- When the outer loop finds a container it is the first one, in list order, carrying the
target name, and the manager takes its id and state. -/
theorem containers_some (dm dm1 : DockerManager) (cs : List Container)
    (h : DockerManager.UpdateContainerInfo.containers dm cs = some dm1) :
    ∃ pre c post, cs = pre ++ c :: post ∧
      (∀ c0 ∈ pre, ("/" ++ dm.containerName) ∉ c0.Names) ∧
      ("/" ++ dm.containerName) ∈ c.Names ∧
      dm1 = { containerName := dm.containerName, containerID := c.ID,
              containerStatus := c.State } := by
  induction cs with
  | nil => simp [DockerManager.UpdateContainerInfo.containers] at h
  | cons c rest ih =>
    unfold DockerManager.UpdateContainerInfo.containers at h
    by_cases hn : DockerManager.UpdateContainerInfo.names dm c.Names = true
    · simp only [hn, if_true, Option.some.injEq] at h
      refine ⟨[], c, rest, rfl, ?_, (names_iff dm c.Names).1 hn, ?_⟩
      · intro c0 hc0; cases hc0
      · rw [← h]; rfl
    · simp only [hn] at h
      obtain ⟨pre, c1, post, hsplit, hpre, hc1, hdm⟩ := ih h
      refine ⟨c :: pre, c1, post, by rw [hsplit]; rfl, ?_, hc1, hdm⟩
      intro c0 hc0
      rcases List.mem_cons.1 hc0 with hc0 | hc0
      · subst hc0
        exact fun hm => hn ((names_iff dm c0.Names).2 hm)
      · exact hpre c0 hc0

/-- Calling `StartMany` on a running cache does nothing, whatever the runtime would answer. -/
theorem StartMany_running (dm : DockerManager) (h : dm.containerStatus = "running")
    (rts : List Runtime) :
    (dm.StartMany rts).ret = List.replicate rts.length none ∧
      (dm.StartMany rts).dm = dm ∧ (dm.StartMany rts).calls = [] := by
  induction rts with
  | nil => simp [DockerManager.StartMany]
  | cons rt rest ih =>
    have hs : dm.Start rt = ⟨none, dm, []⟩ := by
      simp [DockerManager.Start, DockerManager.GetStatus, h]
    simp only [DockerManager.StartMany, hs, List.length_cons, List.replicate_succ,
      List.nil_append]
    exact ⟨by rw [ih.1], ih.2.1, ih.2.2⟩

end docker

namespace customServer

open docker

/-- One iteration of the status responder appends one round to the trace: a failed read; or
the read of a packet followed by its answer, if it gets one.  The loop goes on only
when nothing in the round failed, and only the last action of a round can have failed. -/
theorem acceptListPing_body_round (env : Env) (s : Server) (clientProtocol : Int)
    (w : World) :
    ∃ r : List Action,
      (Server.acceptListPing.body env s clientProtocol w).2.trace = w.trace ++ r ∧
      ((Server.acceptListPing.body env s clientProtocol w).1 = true →
        ∀ a ∈ r, a.failed = false) ∧
      (∀ a ∈ r.dropLast, a.failed = false) ∧
      r ≠ [] ∧ r.countP Action.isClientRead = 1 ∧
      ((∃ e, r = [.clientRead (.error e)]) ∨
        (∃ p resp ok, p.ID = packetid.StatusResponse ∧
          s.listResp env clientProtocol = .ok resp ∧
          r = [.clientRead (.ok p),
                .clientWrite (pk.Marshal 0 [env.encodeString resp]) ok]) ∨
        (∃ p e, p.ID = packetid.StatusResponse ∧
          s.listResp env clientProtocol = .error e ∧ r = [.clientRead (.ok p)]) ∨
        (∃ p ok, p.ID = packetid.StatusPongResponse ∧
          r = [.clientRead (.ok p), .clientWrite p ok]) ∨
        (∃ p, p.ID ≠ packetid.StatusResponse ∧ p.ID ≠ packetid.StatusPongResponse ∧
          r = [.clientRead (.ok p)])) := by
  unfold Server.acceptListPing.body World.ReadPacket
  cases hin : w.incoming with
  | nil =>
    refine ⟨[.clientRead (.error "EOF")], by simp [World.log], ?_, by simp, by simp,
      by simp [Action.isClientRead], Or.inl ⟨"EOF", rfl⟩⟩
    simp
  | cons x rest =>
    cases x with
    | error e =>
      refine ⟨[.clientRead (.error e)], by simp [World.log], ?_, by simp, by simp,
        by simp [Action.isClientRead], Or.inl ⟨e, rfl⟩⟩
      simp
    | ok p =>
      by_cases h0 : p.ID = packetid.StatusResponse
      · cases hl : s.listResp env clientProtocol with
        | error e =>
          refine ⟨[.clientRead (.ok p)], by simp [World.log, h0, hl], ?_, by simp, by simp,
            by simp [Action.isClientRead],
            Or.inr (Or.inr (Or.inl ⟨p, e, h0, rfl, rfl⟩))⟩
          simp [h0, hl]
        | ok resp =>
          refine ⟨[.clientRead (.ok p), .clientWrite (pk.Marshal 0 [env.encodeString resp])
              (env.clientWriteOk w.clientWrites)],
            by simp [World.log, World.WritePacket, h0, hl], ?_,
            by simp [Action.failed], by simp, by simp [Action.isClientRead],
            Or.inr (Or.inl ⟨p, resp, _, h0, rfl, rfl⟩)⟩
          simp only [h0, hl, if_true, World.WritePacket, World.log]
          intro hok a ha
          rcases List.mem_cons.1 ha with ha | ha
          · subst ha; rfl
          · rw [List.mem_singleton.1 ha]
            simp only [Action.failed]
            cases hw : env.clientWriteOk w.clientWrites
            · rw [hw] at hok; cases hok
            · rfl
      · by_cases h1 : p.ID = packetid.StatusPongResponse
        · have hne : packetid.StatusPongResponse ≠ packetid.StatusResponse := by decide
          refine ⟨[.clientRead (.ok p), .clientWrite p (env.clientWriteOk w.clientWrites)],
            by simp [World.log, World.WritePacket, h1, hne], ?_,
            by simp [Action.failed], by simp, by simp [Action.isClientRead],
            Or.inr (Or.inr (Or.inr (Or.inl ⟨p, _, h1, rfl⟩)))⟩
          simp only [h1, hne, if_true, if_false, World.WritePacket, World.log]
          intro hok a ha
          rcases List.mem_cons.1 ha with ha | ha
          · subst ha; rfl
          · rw [List.mem_singleton.1 ha]
            simp only [Action.failed]
            cases hw : env.clientWriteOk w.clientWrites
            · rw [hw] at hok; cases hok
            · rfl
        · refine ⟨[.clientRead (.ok p)], by simp [World.log, h0, h1], ?_, by simp, by simp,
            by simp [Action.isClientRead],
            Or.inr (Or.inr (Or.inr (Or.inr ⟨p, h0, h1, rfl⟩)))⟩
          simp [Action.failed]

/-- What `acceptListPing` appends to the trace: its entry marker and at most two rounds. -/
theorem acceptListPing_rounds (env : Env) (s : Server) (clientProtocol : Int) (w : World) :
    ∃ rounds : List (List Action),
      (s.acceptListPing env clientProtocol w).trace =
        w.trace ++ Action.acceptListPing clientProtocol :: rounds.flatten ∧
      rounds.length ≤ 2 ∧
      rounds.flatten.countP Action.isClientRead ≤ 2 ∧
      (∀ a ∈ rounds.flatten.dropLast, a.failed = false) ∧
      ∀ r ∈ rounds,
        (∃ e, r = [.clientRead (.error e)]) ∨
        (∃ p resp ok, p.ID = packetid.StatusResponse ∧
          s.listResp env clientProtocol = .ok resp ∧
          r = [.clientRead (.ok p),
                .clientWrite (pk.Marshal 0 [env.encodeString resp]) ok]) ∨
        (∃ p e, p.ID = packetid.StatusResponse ∧
          s.listResp env clientProtocol = .error e ∧ r = [.clientRead (.ok p)]) ∨
        (∃ p ok, p.ID = packetid.StatusPongResponse ∧
          r = [.clientRead (.ok p), .clientWrite p ok]) ∨
        (∃ p, p.ID ≠ packetid.StatusResponse ∧ p.ID ≠ packetid.StatusPongResponse ∧
          r = [.clientRead (.ok p)]) := by
  obtain ⟨r1, ht1, hgo1, hdl1, hne1, hcnt1, hshape1⟩ :=
    acceptListPing_body_round env s clientProtocol (w.log (.acceptListPing clientProtocol))
  unfold Server.acceptListPing Server.acceptListPing.loop
  cases hb : Server.acceptListPing.body env s clientProtocol
      (w.log (.acceptListPing clientProtocol)) with
  | mk b w1 =>
  rw [hb] at ht1 hgo1
  cases b with
  | false =>
    refine ⟨[r1], ?_, by simp, by simp [hcnt1], by simpa using hdl1, ?_⟩
    · simp only [List.flatten_cons, List.flatten_nil, List.append_nil]
      rw [show w1.trace = _ from ht1]
      simp [World.log]
    · intro r hr
      rw [List.mem_singleton.1 hr]
      exact hshape1
  | true =>
    obtain ⟨r2, ht2, _, hdl2, hne2, hcnt2, hshape2⟩ :=
      acceptListPing_body_round env s clientProtocol w1
    unfold Server.acceptListPing.loop
    cases hb2 : Server.acceptListPing.body env s clientProtocol w1 with
    | mk b2 w2 =>
    rw [hb2] at ht2
    have htr : w2.trace =
        w.trace ++ Action.acceptListPing clientProtocol :: [r1, r2].flatten := by
      rw [show w2.trace = _ from ht2, show w1.trace = _ from ht1]
      simp [World.log]
    have hrest : ∀ a ∈ ([r1, r2].flatten).dropLast, a.failed = false := by
      intro a ha
      have hfl : [r1, r2].flatten = r1 ++ r2 := by simp
      rw [hfl, List.dropLast_append_of_ne_nil _ hne2] at ha
      rcases List.mem_append.1 ha with ha | ha
      · exact hgo1 rfl a ha
      · exact hdl2 a ha
    have hcnt : ([r1, r2].flatten).countP Action.isClientRead ≤ 2 := by
      simp [List.countP_append, hcnt1, hcnt2]
    cases b2 <;>
    · refine ⟨[r1, r2], htr, by simp, hcnt, hrest, ?_⟩
      intro r hr
      rcases List.mem_cons.1 hr with hr | hr
      · rw [hr]; exact hshape1
      · rw [List.mem_singleton.1 hr]; exact hshape2

/-- One iteration of the status responder, exactly: it consumes the next delivery `d` of the
socket, and what it appends to the trace and whether the loop goes on are fixed by `d`, by
the serialised listing and by the outcome `okf` of the next client write. -/
theorem acceptListPing_body_exact (env : Env) (s : Server) (clientProtocol : Int)
    (w : World) (d : Except String pk.Packet) (okf : Bool)
    (hd : d = (w.incoming[0]?).getD (.error "EOF"))
    (hokf : okf = env.clientWriteOk w.clientWrites) :
    ∃ r : List Action,
      (Server.acceptListPing.body env s clientProtocol w).2.trace = w.trace ++ r ∧
      (Server.acceptListPing.body env s clientProtocol w).2.incoming = w.incoming.drop 1 ∧
      (Server.acceptListPing.body env s clientProtocol w).2.clientWrites =
        w.clientWrites + r.countP Action.isClientWrite ∧
      ((∃ e, d = .error e ∧ r = [.clientRead (.error e)] ∧
          (Server.acceptListPing.body env s clientProtocol w).1 = false) ∨
        (∃ p resp, d = .ok p ∧ p.ID = packetid.StatusResponse ∧
          s.listResp env clientProtocol = .ok resp ∧
          r = [.clientRead (.ok p),
                .clientWrite (pk.Marshal 0 [env.encodeString resp]) okf] ∧
          (Server.acceptListPing.body env s clientProtocol w).1 = okf) ∨
        (∃ p e, d = .ok p ∧ p.ID = packetid.StatusResponse ∧
          s.listResp env clientProtocol = .error e ∧ r = [.clientRead (.ok p)] ∧
          (Server.acceptListPing.body env s clientProtocol w).1 = false) ∨
        (∃ p, d = .ok p ∧ p.ID = packetid.StatusPongResponse ∧
          r = [.clientRead (.ok p), .clientWrite p okf] ∧
          (Server.acceptListPing.body env s clientProtocol w).1 = okf) ∨
        (∃ p, d = .ok p ∧ p.ID ≠ packetid.StatusResponse ∧
          p.ID ≠ packetid.StatusPongResponse ∧ r = [.clientRead (.ok p)] ∧
          (Server.acceptListPing.body env s clientProtocol w).1 = true)) := by
  subst hokf
  unfold Server.acceptListPing.body World.ReadPacket
  cases hin : w.incoming with
  | nil =>
    rw [hin] at hd
    exact ⟨[.clientRead (.error "EOF")], by simp [World.log], by simp [World.log, hin],
      by simp [World.log, Action.isClientWrite], Or.inl ⟨"EOF", by simpa using hd, rfl, rfl⟩⟩
  | cons x rest =>
    rw [hin] at hd
    have hdx : d = x := by simpa using hd
    subst hdx
    cases d with
    | error e =>
      exact ⟨[.clientRead (.error e)], by simp [World.log], by simp [World.log],
        by simp [World.log, Action.isClientWrite], Or.inl ⟨e, rfl, rfl, rfl⟩⟩
    | ok p =>
      by_cases h0 : p.ID = packetid.StatusResponse
      · cases hl : s.listResp env clientProtocol with
        | error e =>
          exact ⟨[.clientRead (.ok p)], by simp [World.log, h0, hl],
            by simp [World.log, h0, hl],
            by simp [World.log, h0, hl, Action.isClientWrite],
            Or.inr (Or.inr (Or.inl ⟨p, e, rfl, h0, rfl, rfl, by simp [h0, hl]⟩))⟩
        | ok resp =>
          exact ⟨[.clientRead (.ok p), .clientWrite (pk.Marshal 0 [env.encodeString resp])
              (env.clientWriteOk w.clientWrites)],
            by simp [World.log, World.WritePacket, h0, hl],
            by simp [World.log, World.WritePacket, h0, hl],
            by simp [World.log, World.WritePacket, h0, hl, Action.isClientWrite],
            Or.inr (Or.inl ⟨p, resp, rfl, h0, rfl, rfl,
              by simp [World.log, World.WritePacket, h0, hl]⟩)⟩
      · by_cases h1 : p.ID = packetid.StatusPongResponse
        · have hne : packetid.StatusPongResponse ≠ packetid.StatusResponse := by decide
          exact ⟨[.clientRead (.ok p), .clientWrite p (env.clientWriteOk w.clientWrites)],
            by simp [World.log, World.WritePacket, h1, hne],
            by simp [World.log, World.WritePacket, h1, hne],
            by simp [World.log, World.WritePacket, h1, hne, Action.isClientWrite],
            Or.inr (Or.inr (Or.inr (Or.inl ⟨p, rfl, h1, rfl,
              by simp [World.log, World.WritePacket, h1, hne]⟩)))⟩
        · exact ⟨[.clientRead (.ok p)], by simp [World.log, h0, h1],
            by simp [World.log, h0, h1],
            by simp [World.log, h0, h1, Action.isClientWrite],
            Or.inr (Or.inr (Or.inr (Or.inr ⟨p, rfl, h0, h1, rfl, by simp [h0, h1]⟩)))⟩

/-- Everything the status responder does after its entry marker is client traffic. -/
theorem acceptListPing_trace (env : Env) (s : Server) (clientProtocol : Int) (w : World) :
    ∃ d : List Action,
      (s.acceptListPing env clientProtocol w).trace =
        w.trace ++ Action.acceptListPing clientProtocol :: d ∧
      ∀ a ∈ d, a.isRelay = false := by
  obtain ⟨rounds, htr, _, _, _, hshape⟩ := acceptListPing_rounds env s clientProtocol w
  refine ⟨rounds.flatten, htr, ?_⟩
  intro a ha
  obtain ⟨r, hr, har⟩ := List.mem_flatten.1 ha
  rcases hshape r hr with
    ⟨e, h⟩ | ⟨p, resp, ok, _, _, h⟩ | ⟨p, e, _, _, h⟩ | ⟨p, ok, _, h⟩ | ⟨p, _, _, h⟩ <;>
  · subst h
    simp only [List.mem_cons, List.mem_singleton, List.not_mem_nil, or_false] at har
    first
      | (subst har; rfl)
      | (rcases har with h | h <;> subst h <;> rfl)

/-- The first attempt connects before the deadline is seen: one attempt, success. -/
theorem AwaitDial_connected_first (attempt : Nat → DialAttempt) (expired : Nat → Bool)
    (h0 : expired 0 = false) (h1 : attempt 1 = .connected) :
    AwaitDial attempt expired = (.ok (), 1) := by
  unfold AwaitDial AwaitDial.loop
  simp [h0, h1]

/-- The first attempt fails with a non-retryable error: that error is returned. -/
theorem AwaitDial_fatal_first (attempt : Nat → DialAttempt) (expired : Nat → Bool)
    (err : NetError) (h0 : expired 0 = false) (h1 : attempt 1 = .failed err)
    (hr : retryable err = false) :
    AwaitDial attempt expired = (.error (.dial err), 1) := by
  unfold AwaitDial AwaitDial.loop
  simp [h0, h1, hr]

/-- The replay loop only writes to the backend, with threshold -1. -/
theorem replay_trace (env : Env) (ps : List pk.Packet) (w : World) :
    ∃ d : List Action,
      (proxyConn.replay env ps w).2.trace = w.trace ++ d ∧
      ∀ a ∈ d, ∃ p ok, a = .backendWrite p (-1) ok := by
  induction ps generalizing w with
  | nil => exact ⟨[], by simp [proxyConn.replay], by simp⟩
  | cons p rest ih =>
    unfold proxyConn.replay
    cases hw : env.backendWriteOk w.backendWrites with
    | false =>
      refine ⟨[.backendWrite p (-1) false], by simp [World.Pack, World.log, hw], ?_⟩
      intro a ha
      exact ⟨p, false, List.mem_singleton.1 ha⟩
    | true =>
      simp only [World.Pack, hw]
      obtain ⟨d, hd, hall⟩ := ih
        ({ w with backendWrites := w.backendWrites + 1 }.log (.backendWrite p (-1) true))
      refine ⟨.backendWrite p (-1) true :: d, by rw [hd]; simp [World.log], ?_⟩
      intro a ha
      rcases List.mem_cons.1 ha with ha | ha
      · exact ⟨p, true, ha⟩
      · exact hall a ha

/-- When every backend write succeeds the replay loop writes each packet once, in order. -/
theorem replay_all_ok (env : Env) (hok : ∀ k, env.backendWriteOk k = true)
    (ps : List pk.Packet) (w : World) :
    proxyConn.replay env ps w =
      (true, { w with backendWrites := w.backendWrites + ps.length,
                      trace := w.trace ++ ps.map (fun p => .backendWrite p (-1) true) }) := by
  induction ps generalizing w with
  | nil => simp [proxyConn.replay]
  | cons p rest ih =>
    unfold proxyConn.replay
    simp only [World.Pack, hok, World.log]
    rw [ih]
    simp [Nat.add_assoc, Nat.add_comm 1]

/-- The relay never enters the status responder; its first action is its entry marker. -/
theorem proxyConn_trace (env : Env) (w : World) (ep : String) (ps : List pk.Packet) :
    ∃ d : List Action,
      (proxyConn env w ep ps).2.trace = w.trace ++ Action.proxyConn ep ps :: d ∧
      ∀ a ∈ d, a.isStatusResponder = false := by
  unfold proxyConn
  cases hr : (AwaitDial env.attempt env.expired).1 with
  | error e =>
    refine ⟨[.awaitDial ep 25 (.error e), .clientWrite
        (pk.Marshal packetid.LoginDisconnect [env.encodeMessage proxyConn.startingMsg])
        (env.clientWriteOk w.clientWrites)], by simp [World.WritePacket, World.log], ?_⟩
    intro a ha
    simp only [List.mem_cons, List.mem_singleton, List.not_mem_nil, or_false] at ha
    rcases ha with h | h <;> subst h <;> rfl
  | ok u =>
    obtain ⟨d, hd, hall⟩ := replay_trace env ps
      ((((w.log (.proxyConn ep ps)).log (.awaitDial ep 25 (.ok u))).log
        (.startCopy .clientToServer)).log (.startCopy .serverToClient))
    have hall2 : ∀ a ∈ d, a.isStatusResponder = false := by
      intro a ha
      obtain ⟨p, ok, h⟩ := hall a ha
      subst h; rfl
    simp only []
    cases hrep : proxyConn.replay env ps
      ((((w.log (.proxyConn ep ps)).log (.awaitDial ep 25 (.ok u))).log
        (.startCopy .clientToServer)).log (.startCopy .serverToClient)) with
    | mk b w4 =>
    rw [hrep] at hd
    have hd4 : w4.trace = _ := hd
    cases b
    · refine ⟨[.awaitDial ep 25 (.ok u), .startCopy .clientToServer,
        .startCopy .serverToClient] ++ d ++ [.backendClose], ?_, ?_⟩
      · simp [World.log, hd4]
      · intro a ha
        simp only [List.mem_append, List.mem_cons, List.mem_singleton, List.not_mem_nil,
          or_false] at ha
        rcases ha with ((h | h | h) | h) | h
        · subst h; rfl
        · subst h; rfl
        · subst h; rfl
        · exact hall2 a h
        · subst h; rfl
    · refine ⟨[.awaitDial ep 25 (.ok u), .startCopy .clientToServer,
        .startCopy .serverToClient] ++ d ++ [.awaitCopy, .awaitCopy, .backendClose], ?_, ?_⟩
      · simp [World.log, hd4]
      · intro a ha
        simp only [List.mem_append, List.mem_cons, List.mem_singleton, List.not_mem_nil,
          or_false] at ha
        rcases ha with ((h | h | h) | h) | h | h | h
        · subst h; rfl
        · subst h; rfl
        · subst h; rfl
        · exact hall2 a h
        · subst h; rfl
        · subst h; rfl
        · subst h; rfl

/-- The relay when the dial fails, whatever the error: one disconnect packet to the client,
nothing on the backend side, and `nil` returned. -/
theorem proxyConn_of_dial_error (env : Env) (w : World) (ep : String) (ps : List pk.Packet)
    (e : DialError) (h : (AwaitDial env.attempt env.expired).1 = .error e) :
    proxyConn env w ep ps =
      (none, { w with
        clientWrites := w.clientWrites + 1
        trace := w.trace ++
          [.proxyConn ep ps, .awaitDial ep 25 (.error e),
            .clientWrite
              (pk.Marshal packetid.LoginDisconnect [env.encodeMessage proxyConn.startingMsg])
              (env.clientWriteOk w.clientWrites)] }) := by
  unfold proxyConn
  simp [h, World.WritePacket, World.log]

/-- The relay when the dial succeeds and every backend write succeeds. -/
theorem proxyConn_of_dial_ok (env : Env) (w : World) (ep : String) (ps : List pk.Packet)
    (h : (AwaitDial env.attempt env.expired).1 = .ok ())
    (hok : ∀ k, env.backendWriteOk k = true) :
    proxyConn env w ep ps =
      (none, { w with
        backendWrites := w.backendWrites + ps.length
        trace := w.trace ++
          ([.proxyConn ep ps, .awaitDial ep 25 (.ok ()), .startCopy .clientToServer,
              .startCopy .serverToClient] ++
            ps.map (fun p => Action.backendWrite p (-1) true) ++
            [.awaitCopy, .awaitCopy, .backendClose]) }) := by
  unfold proxyConn
  simp [h, replay_all_ok env hok, World.log]

/-- The refresh issues one list call and nothing else. -/
theorem UpdateContainerInfo_calls (dm : DockerManager) (rt : Runtime) :
    (dm.UpdateContainerInfo rt).calls = [RuntimeCall.ContainerList true dm.containerName] := by
  unfold DockerManager.UpdateContainerInfo
  cases rt.containerList with
  | error e => rfl
  | ok cs =>
    simp only []
    cases DockerManager.UpdateContainerInfo.containers dm cs <;> rfl

end customServer

namespace docker

/-- C1: on a manager whose cached status is "running", `Start` returns nil, issues no
runtime call and leaves the manager (status and container id) as it was; any number of
consecutive `Start` calls does the same, whatever the runtime would have answered. -/
theorem Start_running_is_noop (dm : DockerManager) (rt : Runtime)
    (h : dm.GetStatus = "running") :
    (dm.Start rt).ret = none ∧ (dm.Start rt).calls = [] ∧ (dm.Start rt).dm = dm ∧
      ∀ rts : List Runtime,
        (dm.StartMany rts).ret = List.replicate rts.length none ∧
          (dm.StartMany rts).calls = [] ∧ (dm.StartMany rts).dm = dm := by
  have hs : dm.containerStatus = "running" := h
  refine ⟨?_, ?_, ?_, ?_⟩
  · simp [DockerManager.Start, DockerManager.GetStatus, hs]
  · simp [DockerManager.Start, DockerManager.GetStatus, hs]
  · simp [DockerManager.Start, DockerManager.GetStatus, hs]
  · intro rts
    obtain ⟨h1, h2, h3⟩ := StartMany_running dm hs rts
    exact ⟨h1, h3, h2⟩

theorem Start_running_is_noop_witness :
    sample.running.GetStatus = "running" ∧
      (sample.running.Start sample.rtDown).ret = none ∧
      (sample.running.Start sample.rtDown).calls = [] ∧
      (sample.running.Start sample.rtDown).dm = sample.running ∧
      ∀ rts : List Runtime,
        (sample.running.StartMany rts).ret = List.replicate rts.length none ∧
          (sample.running.StartMany rts).calls = [] ∧
          (sample.running.StartMany rts).dm = sample.running :=
  ⟨by decide, Start_running_is_noop sample.running sample.rtDown (by decide)⟩

/-- C2: on a manager whose cached status is not "running", `Start` issues exactly one
runtime call, the start command for the stored container id (no list call); if the command
succeeds `Start` returns nil and the cached status is "running", the rest of the manager
unchanged; if it fails `Start` returns an error and the manager is as before the call. -/
theorem Start_not_running (dm : DockerManager) (rt : Runtime)
    (h : dm.GetStatus ≠ "running") :
    (dm.Start rt).calls = [RuntimeCall.ContainerStart dm.containerID] ∧
      (rt.containerStart dm.containerID = none →
        (dm.Start rt).ret = none ∧ (dm.Start rt).dm.GetStatus = "running" ∧
          (dm.Start rt).dm = { dm with containerStatus := "running" }) ∧
      (∀ err, rt.containerStart dm.containerID = some err →
        (dm.Start rt).ret ≠ none ∧ (dm.Start rt).dm = dm) := by
  have hs : dm.containerStatus ≠ "running" := h
  refine ⟨?_, ?_, ?_⟩
  · unfold DockerManager.Start
    cases hc : rt.containerStart dm.containerID <;>
      simp [DockerManager.GetStatus, hs]
  · intro hc
    simp [DockerManager.Start, DockerManager.GetStatus, DockerManager.setStatus, hs, hc]
  · intro err hc
    simp [DockerManager.Start, DockerManager.GetStatus, hs, hc]

theorem Start_not_running_witness :
    sample.exited.GetStatus ≠ "running" ∧
      (sample.exited.Start sample.rtDown).calls =
        [RuntimeCall.ContainerStart sample.exited.containerID] ∧
      (sample.rtDown.containerStart sample.exited.containerID = none →
        (sample.exited.Start sample.rtDown).ret = none ∧
          (sample.exited.Start sample.rtDown).dm.GetStatus = "running" ∧
          (sample.exited.Start sample.rtDown).dm =
            { sample.exited with containerStatus := "running" }) ∧
      (∀ err, sample.rtDown.containerStart sample.exited.containerID = some err →
        (sample.exited.Start sample.rtDown).ret ≠ none ∧
          (sample.exited.Start sample.rtDown).dm = sample.exited) :=
  ⟨by decide, Start_not_running sample.exited sample.rtDown (by decide)⟩

/-- C3: when the runtime returns a container list, `UpdateContainerInfo` returns no error
and returns exists = true exactly when some listed container has a name equal to
"/" followed by the configured name; in that case the manager holds the state and the id
of the first such container in list order; when no container has such a name the cached
status becomes "notCreated" and exists = false. -/
theorem UpdateContainerInfo_exact_name (dm : DockerManager) (rt : Runtime)
    (cs : List Container) (h : rt.containerList = .ok cs) :
    (dm.UpdateContainerInfo rt).ret.2 = none ∧
      ((dm.UpdateContainerInfo rt).ret.1 = true ↔
        ∃ c ∈ cs, ("/" ++ dm.containerName) ∈ c.Names) ∧
      ((dm.UpdateContainerInfo rt).ret.1 = true →
        ∃ pre c post, cs = pre ++ c :: post ∧
          (∀ c0 ∈ pre, ("/" ++ dm.containerName) ∉ c0.Names) ∧
          ("/" ++ dm.containerName) ∈ c.Names ∧
          (dm.UpdateContainerInfo rt).dm.GetStatus = c.State ∧
          (dm.UpdateContainerInfo rt).dm.containerID = c.ID) ∧
      ((∀ c ∈ cs, ("/" ++ dm.containerName) ∉ c.Names) →
        (dm.UpdateContainerInfo rt).ret.1 = false ∧
          (dm.UpdateContainerInfo rt).dm.GetStatus = "notCreated") := by
  unfold DockerManager.UpdateContainerInfo
  simp only [h]
  cases hc : DockerManager.UpdateContainerInfo.containers dm cs with
  | none =>
    have hnone := (containers_none_iff dm cs).1 hc
    refine ⟨rfl, ?_, ?_, ?_⟩
    · constructor
      · intro hf; cases hf
      · rintro ⟨c, hc1, hc2⟩
        exact absurd hc2 (hnone c hc1)
    · intro hf; cases hf
    · intro _
      exact ⟨rfl, rfl⟩
  | some dm1 =>
    obtain ⟨pre, c, post, hsplit, hpre, hmem, hdm⟩ := containers_some dm dm1 cs hc
    refine ⟨rfl, ?_, ?_, ?_⟩
    · constructor
      · intro _
        exact ⟨c, by rw [hsplit]; simp, hmem⟩
      · intro _; rfl
    · intro _
      refine ⟨pre, c, post, hsplit, hpre, hmem, ?_, ?_⟩
      · show dm1.GetStatus = c.State
        rw [hdm]; rfl
      · show dm1.containerID = c.ID
        rw [hdm]
    · intro hall
      have hin : c ∈ cs := by rw [hsplit]; simp
      exact absurd hmem (hall c hin)

theorem UpdateContainerInfo_exact_name_witness :
    sample.rtUp.containerList = .ok sample.listed ∧
      ((sample.running.UpdateContainerInfo sample.rtUp).ret.2 = none ∧
      ((sample.running.UpdateContainerInfo sample.rtUp).ret.1 = true ↔
        ∃ c ∈ sample.listed, ("/" ++ sample.running.containerName) ∈ c.Names) ∧
      ((sample.running.UpdateContainerInfo sample.rtUp).ret.1 = true →
        ∃ pre c post, sample.listed = pre ++ c :: post ∧
          (∀ c0 ∈ pre, ("/" ++ sample.running.containerName) ∉ c0.Names) ∧
          ("/" ++ sample.running.containerName) ∈ c.Names ∧
          (sample.running.UpdateContainerInfo sample.rtUp).dm.GetStatus = c.State ∧
          (sample.running.UpdateContainerInfo sample.rtUp).dm.containerID = c.ID) ∧
      ((∀ c ∈ sample.listed, ("/" ++ sample.running.containerName) ∉ c.Names) →
        (sample.running.UpdateContainerInfo sample.rtUp).ret.1 = false ∧
          (sample.running.UpdateContainerInfo sample.rtUp).dm.GetStatus = "notCreated")) :=
  ⟨rfl, UpdateContainerInfo_exact_name sample.running sample.rtUp sample.listed rfl⟩

end docker

namespace customServer

open docker

/-- C4: with a listing provider built by `NewPingInfo name protocol motd`, for every client
protocol version the listing that `listResp` serialises has players.max = 0,
players.online = 0, an empty sample, version.name = name and version.protocol = protocol. -/
theorem listResp_startup_listing (env : Env) (name : String) (protocol : Int)
    (motd : chat.Message) (clientProtocol : Int) :
    Server.listResp env ⟨(NewPingInfo name protocol motd).handler⟩ clientProtocol =
        env.jsonMarshal
          (Server.listing ⟨(NewPingInfo name protocol motd).handler⟩ clientProtocol) ∧
      (Server.listing ⟨(NewPingInfo name protocol motd).handler⟩ clientProtocol).PlayersMax
        = 0 ∧
      (Server.listing ⟨(NewPingInfo name protocol motd).handler⟩ clientProtocol).PlayersOnline
        = 0 ∧
      (Server.listing ⟨(NewPingInfo name protocol motd).handler⟩ clientProtocol).PlayersSample
        = [] ∧
      (Server.listing ⟨(NewPingInfo name protocol motd).handler⟩ clientProtocol).VersionName
        = name ∧
      (Server.listing ⟨(NewPingInfo name protocol motd).handler⟩
        clientProtocol).VersionProtocol = protocol :=
  ⟨rfl, rfl, rfl, rfl, rfl, rfl⟩

/-- C5: what `acceptListPing` does on the client connection, after its entry marker, is a
sequence of one or two rounds; every round holds exactly one read, so at most two packets
are read, and only the last action of the whole sequence can be a failed read or write, so
nothing is done after the first error.  Round k (k = 0, 1) consumes the k-th delivery of
the client socket (end of stream when the socket is exhausted) and is fixed by it:
a failed read ends the loop; a list-details packet is answered by one packet with id 0
whose payload is the serialised listing for the client protocol version (if the listing
cannot be serialised nothing is written and the loop ends); a ping packet is answered by
writing back that very packet; a packet with another discriminator is answered by
nothing.  The outcome of a write is the one the connection gives to that write, and the
loop goes on after a round exactly when nothing failed in it: then a second round follows
the first, and nothing follows the second. -/
theorem acceptListPing_answers_by_discriminator (env : Env) (s : Server)
    (clientProtocol : Int) (w : World) :
    ∃ rounds : List (List Action),
      (s.acceptListPing env clientProtocol w).trace =
        w.trace ++ Action.acceptListPing clientProtocol :: rounds.flatten ∧
      1 ≤ rounds.length ∧ rounds.length ≤ 2 ∧
      rounds.flatten.countP Action.isClientRead ≤ 2 ∧
      (∀ a ∈ rounds.flatten.dropLast, a.failed = false) ∧
      ∀ (k : Nat) (r : List Action), rounds[k]? = some r →
        ∃ (goes okf : Bool),
          okf = env.clientWriteOk
            (w.clientWrites + (rounds.take k).flatten.countP Action.isClientWrite) ∧
          (goes = true → k + 1 < rounds.length ∨ k + 1 = 2) ∧
          (goes = false → k + 1 = rounds.length) ∧
          ((∃ e, (w.incoming[k]?).getD (.error "EOF") = .error e ∧
              r = [.clientRead (.error e)] ∧ goes = false) ∨
            (∃ p resp, (w.incoming[k]?).getD (.error "EOF") = .ok p ∧
              p.ID = packetid.StatusResponse ∧
              s.listResp env clientProtocol = .ok resp ∧
              r = [.clientRead (.ok p),
                    .clientWrite (pk.Marshal 0 [env.encodeString resp]) okf] ∧
              goes = okf) ∨
            (∃ p e, (w.incoming[k]?).getD (.error "EOF") = .ok p ∧
              p.ID = packetid.StatusResponse ∧
              s.listResp env clientProtocol = .error e ∧ r = [.clientRead (.ok p)] ∧
              goes = false) ∨
            (∃ p, (w.incoming[k]?).getD (.error "EOF") = .ok p ∧
              p.ID = packetid.StatusPongResponse ∧
              r = [.clientRead (.ok p), .clientWrite p okf] ∧ goes = okf) ∨
            (∃ p, (w.incoming[k]?).getD (.error "EOF") = .ok p ∧
              p.ID ≠ packetid.StatusResponse ∧ p.ID ≠ packetid.StatusPongResponse ∧
              r = [.clientRead (.ok p)] ∧ goes = true)) := by
  obtain ⟨rounds0, htr0, _, hcnt0, hdl0, _⟩ := acceptListPing_rounds env s clientProtocol w
  -- first iteration
  obtain ⟨r0, ht0, hin0, hcw0, hshape0⟩ :=
    acceptListPing_body_exact env s clientProtocol (w.log (.acceptListPing clientProtocol))
      ((w.incoming[0]?).getD (.error "EOF")) (env.clientWriteOk w.clientWrites) rfl rfl
  cases hb : Server.acceptListPing.body env s clientProtocol
      (w.log (.acceptListPing clientProtocol)) with
  | mk b w1 =>
  simp only [hb] at ht0 hin0 hcw0 hshape0
  cases b with
  | false =>
    have htr : (s.acceptListPing env clientProtocol w).trace =
        w.trace ++ Action.acceptListPing clientProtocol :: [r0].flatten := by
      simp only [Server.acceptListPing, Server.acceptListPing.loop, hb]
      rw [ht0]
      simp [World.log]
    have hfl : [r0].flatten = rounds0.flatten := by
      have h := htr.symm.trans htr0
      simpa using h
    refine ⟨[r0], htr, by simp, by simp, by rw [hfl]; exact hcnt0,
      by rw [hfl]; exact hdl0, ?_⟩
    intro k r hk
    match k, hk with
    | 0, hk =>
      have hr : r0 = r := by simpa using hk
      subst hr
      exact ⟨false, env.clientWriteOk w.clientWrites, by simp, by simp, by simp, hshape0⟩
    | k + 1, hk => simp at hk
  | true =>
    -- second iteration
    have hd1 : (w.incoming[1]?).getD (.error "EOF") =
        (w1.incoming[0]?).getD (.error "EOF") := by
      rw [hin0]
      simp [World.log, List.getElem?_drop]
    obtain ⟨r1, ht1, _, _, hshape1⟩ :=
      acceptListPing_body_exact env s clientProtocol w1
        ((w.incoming[1]?).getD (.error "EOF")) (env.clientWriteOk w1.clientWrites) hd1 rfl
    have htr : (s.acceptListPing env clientProtocol w).trace =
        w.trace ++ Action.acceptListPing clientProtocol :: [r0, r1].flatten := by
      have hl : s.acceptListPing env clientProtocol w =
          (Server.acceptListPing.body env s clientProtocol w1).2 := by
        simp only [Server.acceptListPing, Server.acceptListPing.loop, hb]
        cases hb2 : Server.acceptListPing.body env s clientProtocol w1 with
        | mk b2 w2 => cases b2 <;> rfl
      rw [hl, ht1, ht0]
      simp [World.log]
    have hfl : [r0, r1].flatten = rounds0.flatten := by
      have h := htr.symm.trans htr0
      simpa using h
    refine ⟨[r0, r1], htr, by simp, by simp, by rw [hfl]; exact hcnt0,
      by rw [hfl]; exact hdl0, ?_⟩
    intro k r hk
    match k, hk with
    | 0, hk =>
      have hr : r0 = r := by simpa using hk
      subst hr
      exact ⟨true, env.clientWriteOk w.clientWrites, by simp, by simp, by simp, hshape0⟩
    | 1, hk =>
      have hr : r1 = r := by simpa using hk
      subst hr
      refine ⟨(Server.acceptListPing.body env s clientProtocol w1).1,
        env.clientWriteOk w1.clientWrites, ?_, by simp, by simp, hshape1⟩
      rw [hcw0]
      simp [World.log]
    | k + 2, hk => simp at hk

/-- C6: after a handshake decoded with intention 0x01, if the cached status after the
refresh is "running" the handler runs `proxyConn` with the replay list made of the
handshake packet alone and never enters the status responder; otherwise it runs
`acceptListPing` with the protocol version of the handshake and performs no relay action at
all: no dial, no write to the backend, no copy loop. -/
theorem AcceptConnMC_status_branch (env : Env) (s : Server) (dm : DockerManager)
    (hs : pk.Packet) (rest : List (Except String pk.Packet)) (ep : String)
    (protocol : Int) (hscan : env.scanHandshake hs = some (protocol, 0x01)) :
    ((World.afterHandshake env dm (.ok hs :: rest)).dm.GetStatus = "running" →
      s.AcceptConnMC env (World.init dm (.ok hs :: rest)) ep =
        (proxyConn env (World.afterHandshake env dm (.ok hs :: rest)) ep [hs]).2.log
          .clientClose ∧
      Action.proxyConn ep [hs] ∈
        (s.AcceptConnMC env (World.init dm (.ok hs :: rest)) ep).trace ∧
      ∀ a ∈ (s.AcceptConnMC env (World.init dm (.ok hs :: rest)) ep).trace,
        a.isStatusResponder = false) ∧
    ((World.afterHandshake env dm (.ok hs :: rest)).dm.GetStatus ≠ "running" →
      s.AcceptConnMC env (World.init dm (.ok hs :: rest)) ep =
        (s.acceptListPing env protocol (World.afterHandshake env dm (.ok hs :: rest))).log
          .clientClose ∧
      Action.acceptListPing protocol ∈
        (s.AcceptConnMC env (World.init dm (.ok hs :: rest)) ep).trace ∧
      ∀ a ∈ (s.AcceptConnMC env (World.init dm (.ok hs :: rest)) ep).trace,
        a.isRelay = false) := by
  have htrace : (World.afterHandshake env dm (.ok hs :: rest)).trace =
      [.clientRead (.ok hs), .runtime (.ContainerList true dm.containerName)] := by
    simp [World.afterHandshake, World.init, World.ReadPacket, World.refresh, World.log,
      UpdateContainerInfo_calls]
  constructor
  · intro hrun
    have heq : s.AcceptConnMC env (World.init dm (.ok hs :: rest)) ep =
        (proxyConn env (World.afterHandshake env dm (.ok hs :: rest)) ep [hs]).2.log
          .clientClose := by
      unfold World.afterHandshake at hrun
      simp only [World.init, World.ReadPacket] at hrun
      simp [Server.AcceptConnMC, Server.AcceptConnMC.body, World.afterHandshake, World.init,
        World.ReadPacket, hscan, hrun]
    obtain ⟨d, hd, hall⟩ :=
      proxyConn_trace env (World.afterHandshake env dm (.ok hs :: rest)) ep [hs]
    refine ⟨heq, ?_, ?_⟩
    · rw [heq]; simp [World.log, hd]
    · rw [heq]
      intro a ha
      simp only [World.log, hd, htrace, List.mem_append, List.mem_cons, List.mem_singleton,
        List.not_mem_nil, or_false] at ha
      rcases ha with ((h | h) | h | h) | h
      · subst h; rfl
      · subst h; rfl
      · subst h; rfl
      · exact hall a h
      · subst h; rfl
  · intro hrun
    have heq : s.AcceptConnMC env (World.init dm (.ok hs :: rest)) ep =
        (s.acceptListPing env protocol (World.afterHandshake env dm (.ok hs :: rest))).log
          .clientClose := by
      unfold World.afterHandshake at hrun
      simp only [World.init, World.ReadPacket] at hrun
      simp [Server.AcceptConnMC, Server.AcceptConnMC.body, World.afterHandshake, World.init,
        World.ReadPacket, hscan, hrun]
    obtain ⟨d, hd, hall⟩ :=
      acceptListPing_trace env s protocol (World.afterHandshake env dm (.ok hs :: rest))
    refine ⟨heq, ?_, ?_⟩
    · rw [heq]; simp [World.log, hd]
    · rw [heq]
      intro a ha
      simp only [World.log, hd, htrace, List.mem_append, List.mem_cons, List.mem_singleton,
        List.not_mem_nil, or_false] at ha
      rcases ha with ((h | h) | h | h) | h
      · subst h; rfl
      · subst h; rfl
      · subst h; rfl
      · exact hall a h
      · subst h; rfl

theorem AcceptConnMC_status_branch_witness :
    sample.envUp.scanHandshake sample.handshakeStatus = some (769, 0x01) ∧
    (((World.afterHandshake sample.envUp sample.exited
          [.ok sample.handshakeStatus]).dm.GetStatus = "running" →
      Server.AcceptConnMC sample.envUp ⟨(NewPingInfo "1.21.4" 769 (.mk "" "" [])).handler⟩
          (World.init sample.exited [.ok sample.handshakeStatus]) "backend:25565" =
        (proxyConn sample.envUp
          (World.afterHandshake sample.envUp sample.exited [.ok sample.handshakeStatus])
          "backend:25565" [sample.handshakeStatus]).2.log .clientClose ∧
      Action.proxyConn "backend:25565" [sample.handshakeStatus] ∈
        (Server.AcceptConnMC sample.envUp ⟨(NewPingInfo "1.21.4" 769 (.mk "" "" [])).handler⟩
          (World.init sample.exited [.ok sample.handshakeStatus]) "backend:25565").trace ∧
      ∀ a ∈ (Server.AcceptConnMC sample.envUp
          ⟨(NewPingInfo "1.21.4" 769 (.mk "" "" [])).handler⟩
          (World.init sample.exited [.ok sample.handshakeStatus]) "backend:25565").trace,
        a.isStatusResponder = false) ∧
    ((World.afterHandshake sample.envUp sample.exited
          [.ok sample.handshakeStatus]).dm.GetStatus ≠ "running" →
      Server.AcceptConnMC sample.envUp ⟨(NewPingInfo "1.21.4" 769 (.mk "" "" [])).handler⟩
          (World.init sample.exited [.ok sample.handshakeStatus]) "backend:25565" =
        (Server.acceptListPing sample.envUp
          ⟨(NewPingInfo "1.21.4" 769 (.mk "" "" [])).handler⟩ 769
          (World.afterHandshake sample.envUp sample.exited
            [.ok sample.handshakeStatus])).log .clientClose ∧
      Action.acceptListPing 769 ∈
        (Server.AcceptConnMC sample.envUp ⟨(NewPingInfo "1.21.4" 769 (.mk "" "" [])).handler⟩
          (World.init sample.exited [.ok sample.handshakeStatus]) "backend:25565").trace ∧
      ∀ a ∈ (Server.AcceptConnMC sample.envUp
          ⟨(NewPingInfo "1.21.4" 769 (.mk "" "" [])).handler⟩
          (World.init sample.exited [.ok sample.handshakeStatus]) "backend:25565").trace,
        a.isRelay = false)) :=
  ⟨by decide,
    AcceptConnMC_status_branch sample.envUp ⟨(NewPingInfo "1.21.4" 769 (.mk "" "" [])).handler⟩
      sample.exited sample.handshakeStatus [] "backend:25565" 769 (by decide)⟩

/-- C7: on the login branch, after a login-start packet that carries the login-start
discriminator and decodes, when the cached status after the refresh is not "running" and the
start command fails, the handler does exactly this, in order: the two reads, the list
call of the refresh, the one start command, one write to the client of a Login-Disconnect
packet whose message has the text "Remote Server Error:" with " Failed to start server."
appended, and the close of the client connection.  No dial, no write to the backend. -/
theorem AcceptConnMC_login_start_failure (env : Env) (s : Server) (dm : DockerManager)
    (hs ls : pk.Packet) (rest : List (Except String pk.Packet)) (ep : String)
    (protocol : Int) (player : String × String) (err : String)
    (hscan : env.scanHandshake hs = some (protocol, 0x02))
    (hid : ls.ID = packetid.LoginStart)
    (hlogin : env.scanLoginStart ls = some player)
    (hstatus :
      (World.afterHandshake env dm (.ok hs :: .ok ls :: rest)).dm.GetStatus ≠ "running")
    (hstart : env.rt.containerStart
      (World.afterHandshake env dm (.ok hs :: .ok ls :: rest)).dm.containerID = some err) :
    (s.AcceptConnMC env (World.init dm (.ok hs :: .ok ls :: rest)) ep).trace =
      [ .clientRead (.ok hs),
        .runtime (.ContainerList true dm.containerName),
        .clientRead (.ok ls),
        .runtime (.ContainerStart
          (World.afterHandshake env dm (.ok hs :: .ok ls :: rest)).dm.containerID),
        .clientWrite
          (pk.Marshal packetid.LoginDisconnect
            [env.encodeMessage
              (.mk "Remote Server Error:" "red" [.mk " Failed to start server." "white" []])])
          (env.clientWriteOk 0),
        .clientClose ] := by
  simp only [World.afterHandshake, World.init, World.ReadPacket, World.refresh, World.log,
    DockerManager.GetStatus] at hstatus hstart
  have hst : DockerManager.Start (dm.UpdateContainerInfo env.rt).dm env.rt =
      ⟨some ("failed to start container " ++
          (dm.UpdateContainerInfo env.rt).dm.containerName ++ ": " ++ err),
        (dm.UpdateContainerInfo env.rt).dm,
        [RuntimeCall.ContainerStart (dm.UpdateContainerInfo env.rt).dm.containerID]⟩ := by
    simp [DockerManager.Start, DockerManager.GetStatus, hstatus, hstart]
  simp [Server.AcceptConnMC, Server.AcceptConnMC.body, World.afterHandshake, World.init,
    World.ReadPacket, World.refresh, World.log, World.Start, World.WritePacket,
    UpdateContainerInfo_calls, DockerManager.GetStatus, hscan, hid, hlogin, hstatus, hst,
    Server.AcceptConnMC.failedMsg, chat.Message.Append, chat.Message.Text,
    chat.Message.Color, chat.Message.Extra]

theorem AcceptConnMC_login_start_failure_witness :
    sample.envDown.scanHandshake sample.handshakeLogin = some (769, 0x02) ∧
    sample.loginStart.ID = packetid.LoginStart ∧
    sample.envDown.scanLoginStart sample.loginStart =
      some ("Al", "00000000-0000-0000-0000-000000000007") ∧
    (World.afterHandshake sample.envDown sample.exited
      [.ok sample.handshakeLogin, .ok sample.loginStart]).dm.GetStatus ≠ "running" ∧
    sample.envDown.rt.containerStart
      (World.afterHandshake sample.envDown sample.exited
        [.ok sample.handshakeLogin, .ok sample.loginStart]).dm.containerID =
      some "daemon unreachable" ∧
    (Server.AcceptConnMC sample.envDown ⟨(NewPingInfo "1.21.4" 769 (.mk "" "" [])).handler⟩
        (World.init sample.exited [.ok sample.handshakeLogin, .ok sample.loginStart])
        "backend:25565").trace =
      [ .clientRead (.ok sample.handshakeLogin),
        .runtime (.ContainerList true sample.exited.containerName),
        .clientRead (.ok sample.loginStart),
        .runtime (.ContainerStart
          (World.afterHandshake sample.envDown sample.exited
            [.ok sample.handshakeLogin, .ok sample.loginStart]).dm.containerID),
        .clientWrite
          (pk.Marshal packetid.LoginDisconnect
            [sample.envDown.encodeMessage
              (.mk "Remote Server Error:" "red" [.mk " Failed to start server." "white" []])])
          (sample.envDown.clientWriteOk 0),
        .clientClose ] :=
  ⟨by decide, by decide, by decide, by decide, by decide,
    AcceptConnMC_login_start_failure sample.envDown
      ⟨(NewPingInfo "1.21.4" 769 (.mk "" "" [])).handler⟩ sample.exited
      sample.handshakeLogin sample.loginStart [] "backend:25565" 769
      ("Al", "00000000-0000-0000-0000-000000000007") "daemon unreachable"
      (by decide) (by decide) (by decide) (by decide) (by decide)⟩

/-- C8 as the code has it: for every error returned by the backend dial inside `proxyConn`,
the deadline error or any other, `proxyConn` writes the "server is starting" disconnect
packet to the client once, does nothing on the backend side and returns nil, so that no
proxy error reaches the handler. -/
theorem proxyConn_dial_error_disconnects (env : Env) (w : World) (ep : String)
    (ps : List pk.Packet) (e : DialError)
    (h : (AwaitDial env.attempt env.expired).1 = .error e) :
    (proxyConn env w ep ps).1 = none ∧
      (proxyConn env w ep ps).2.trace =
        w.trace ++
          [.proxyConn ep ps, .awaitDial ep 25 (.error e),
            .clientWrite
              (pk.Marshal packetid.LoginDisconnect [env.encodeMessage proxyConn.startingMsg])
              (env.clientWriteOk w.clientWrites)] := by
  rw [proxyConn_of_dial_error env w ep ps e h]
  exact ⟨rfl, rfl⟩

theorem proxyConn_dial_error_disconnects_witness :
    (AwaitDial sample.envNoRoute.attempt sample.envNoRoute.expired).1 =
        .error (.dial sample.noRoute) ∧
      ((proxyConn sample.envNoRoute (World.init sample.running []) "backend:25565"
          [sample.handshakeStatus]).1 = none ∧
        (proxyConn sample.envNoRoute (World.init sample.running []) "backend:25565"
          [sample.handshakeStatus]).2.trace =
          (World.init sample.running []).trace ++
            [.proxyConn "backend:25565" [sample.handshakeStatus],
              .awaitDial "backend:25565" 25 (.error (.dial sample.noRoute)),
              .clientWrite
                (pk.Marshal packetid.LoginDisconnect
                  [sample.envNoRoute.encodeMessage proxyConn.startingMsg])
                (sample.envNoRoute.clientWriteOk (World.init sample.running []).clientWrites)]) :=
  ⟨by rw [AwaitDial_fatal_first _ _ sample.noRoute rfl rfl (by decide)],
    proxyConn_dial_error_disconnects sample.envNoRoute (World.init sample.running [])
      "backend:25565" [sample.handshakeStatus] (.dial sample.noRoute)
      (by rw [AwaitDial_fatal_first _ _ sample.noRoute rfl rfl (by decide)])⟩

/-- C8 as stated fails: the first connection attempt fails with "no route to host", an
error that is not retried and is not the deadline error; `proxyConn` nevertheless writes
the "server is starting" disconnect packet to the client and returns nil. -/
theorem proxyConn_dial_error_counterexample :
    (AwaitDial sample.envNoRoute.attempt sample.envNoRoute.expired).1 =
        .error (.dial sample.noRoute) ∧
      DialError.dial sample.noRoute ≠ DialError.deadlineExceeded ∧
      ¬ ((∀ p ok, Action.clientWrite p ok ∉
            (proxyConn sample.envNoRoute (World.init sample.running []) "backend:25565"
              [sample.handshakeStatus]).2.trace) ∧
          (proxyConn sample.envNoRoute (World.init sample.running []) "backend:25565"
            [sample.handshakeStatus]).1 ≠ none) ∧
      Action.clientWrite
          (pk.Marshal packetid.LoginDisconnect
            [sample.envNoRoute.encodeMessage proxyConn.startingMsg]) true ∈
        (proxyConn sample.envNoRoute (World.init sample.running []) "backend:25565"
          [sample.handshakeStatus]).2.trace ∧
      (proxyConn sample.envNoRoute (World.init sample.running []) "backend:25565"
        [sample.handshakeStatus]).1 = none := by
  have hdial : (AwaitDial sample.envNoRoute.attempt sample.envNoRoute.expired).1 =
      .error (.dial sample.noRoute) := by
    rw [AwaitDial_fatal_first _ _ sample.noRoute rfl rfl (by decide)]
  have hrun := proxyConn_of_dial_error sample.envNoRoute (World.init sample.running [])
    "backend:25565" [sample.handshakeStatus] _ hdial
  refine ⟨hdial, by simp, ?_, ?_, ?_⟩
  · rintro ⟨_, hret⟩
    exact hret (by rw [hrun])
  · rw [hrun]
    simp [World.init, sample.envNoRoute, sample.envUp]
  · rw [hrun]

/-- C9: on the login branch, when the login-start packet carries the login-start
discriminator and decodes, the cache is "running" after the refresh or the start command
succeeds, the dial succeeds and every backend write succeeds, the handler enters `proxyConn`
with the handshake and the login-start packet, and its writes to the backend are exactly
the handshake packet and then the login-start packet, once each, as read from the client
and with compression threshold -1 (uncompressed). -/
theorem AcceptConnMC_login_replays (env : Env) (s : Server) (dm : DockerManager)
    (hs ls : pk.Packet) (rest : List (Except String pk.Packet)) (ep : String)
    (protocol : Int) (player : String × String)
    (hscan : env.scanHandshake hs = some (protocol, 0x02))
    (hid : ls.ID = packetid.LoginStart)
    (hlogin : env.scanLoginStart ls = some player)
    (hstart :
      (World.afterHandshake env dm (.ok hs :: .ok ls :: rest)).dm.GetStatus = "running" ∨
      env.rt.containerStart
        (World.afterHandshake env dm (.ok hs :: .ok ls :: rest)).dm.containerID = none)
    (hdial : (AwaitDial env.attempt env.expired).1 = .ok ())
    (hwrites : ∀ k, env.backendWriteOk k = true) :
    Action.proxyConn ep [hs, ls] ∈
        (s.AcceptConnMC env (World.init dm (.ok hs :: .ok ls :: rest)) ep).trace ∧
      (s.AcceptConnMC env (World.init dm (.ok hs :: .ok ls :: rest)) ep).trace.filterMap
          Action.backendPacket = [(hs, -1), (ls, -1)] := by
  simp only [World.afterHandshake, World.init, World.ReadPacket, World.refresh, World.log,
    DockerManager.GetStatus] at hstart
  by_cases hrun : (dm.UpdateContainerInfo env.rt).dm.containerStatus = "running"
  · simp [Server.AcceptConnMC, Server.AcceptConnMC.body, World.init,
      World.ReadPacket, World.refresh, World.log,
      UpdateContainerInfo_calls, DockerManager.GetStatus, hscan, hid, hlogin, hrun,
      proxyConn_of_dial_ok env _ ep _ hdial hwrites, Action.backendPacket,
      List.filterMap_cons, List.filterMap_append]
  · have hcs : env.rt.containerStart (dm.UpdateContainerInfo env.rt).dm.containerID = none := by
      rcases hstart with h | h
      · exact absurd h hrun
      · exact h
    have hst : DockerManager.Start (dm.UpdateContainerInfo env.rt).dm env.rt =
        ⟨none, (dm.UpdateContainerInfo env.rt).dm.setStatus "running",
          [RuntimeCall.ContainerStart (dm.UpdateContainerInfo env.rt).dm.containerID]⟩ := by
      simp [DockerManager.Start, DockerManager.GetStatus, hrun, hcs]
    simp [Server.AcceptConnMC, Server.AcceptConnMC.body, World.init,
      World.ReadPacket, World.refresh, World.log, World.Start,
      UpdateContainerInfo_calls, DockerManager.GetStatus, hscan, hid, hlogin, hrun, hst,
      proxyConn_of_dial_ok env _ ep _ hdial hwrites, Action.backendPacket,
      List.filterMap_cons, List.filterMap_append]

theorem AcceptConnMC_login_replays_witness :
    sample.envUp.scanHandshake sample.handshakeLogin = some (769, 0x02) ∧
    sample.loginStart.ID = packetid.LoginStart ∧
    sample.envUp.scanLoginStart sample.loginStart =
      some ("Al", "00000000-0000-0000-0000-000000000007") ∧
    ((World.afterHandshake sample.envUp sample.exited
        [.ok sample.handshakeLogin, .ok sample.loginStart]).dm.GetStatus = "running" ∨
      sample.envUp.rt.containerStart
        (World.afterHandshake sample.envUp sample.exited
          [.ok sample.handshakeLogin, .ok sample.loginStart]).dm.containerID = none) ∧
    (AwaitDial sample.envUp.attempt sample.envUp.expired).1 = .ok () ∧
    (∀ k, sample.envUp.backendWriteOk k = true) ∧
    (Action.proxyConn "backend:25565" [sample.handshakeLogin, sample.loginStart] ∈
        (Server.AcceptConnMC sample.envUp ⟨(NewPingInfo "1.21.4" 769 (.mk "" "" [])).handler⟩
          (World.init sample.exited [.ok sample.handshakeLogin, .ok sample.loginStart])
          "backend:25565").trace ∧
      (Server.AcceptConnMC sample.envUp ⟨(NewPingInfo "1.21.4" 769 (.mk "" "" [])).handler⟩
          (World.init sample.exited [.ok sample.handshakeLogin, .ok sample.loginStart])
          "backend:25565").trace.filterMap Action.backendPacket =
        [(sample.handshakeLogin, -1), (sample.loginStart, -1)]) :=
  ⟨by decide, by decide, by decide, Or.inr rfl,
    by rw [AwaitDial_connected_first _ _ rfl rfl], fun _ => rfl,
    AcceptConnMC_login_replays sample.envUp
      ⟨(NewPingInfo "1.21.4" 769 (.mk "" "" [])).handler⟩ sample.exited
      sample.handshakeLogin sample.loginStart [] "backend:25565" 769
      ("Al", "00000000-0000-0000-0000-000000000007")
      (by decide) (by decide) (by decide) (Or.inr rfl)
      (by rw [AwaitDial_connected_first _ _ rfl rfl]) (fun _ => rfl)⟩

/-- C10 on the code: in a run of `proxyConn` whose dial succeeds at the first attempt, with
the handshake packet to replay, both copy loops are started before the handshake packet
is written to the backend. -/
theorem proxyConn_starts_copy_before_replay :
    (proxyConn sample.envUp (World.init sample.running []) "backend:25565"
        [sample.handshakeStatus]).2.trace =
      [ .proxyConn "backend:25565" [sample.handshakeStatus],
        .awaitDial "backend:25565" 25 (.ok ()),
        .startCopy .clientToServer,
        .startCopy .serverToClient,
        .backendWrite sample.handshakeStatus (-1) true,
        .awaitCopy,
        .awaitCopy,
        .backendClose ] := by
  have hdial : (AwaitDial sample.envUp.attempt sample.envUp.expired).1 = .ok () := by
    rw [AwaitDial_connected_first _ _ rfl rfl]
  rw [proxyConn_of_dial_ok sample.envUp _ _ _ hdial (fun _ => rfl)]
  simp [World.init]

/-- While the attempts fail with retryable errors and the deadline is not seen expired, the
loop of `AwaitDial` goes from `i` attempts made to `i + n`, as long as the guard
`i > 1000` lets it. -/
theorem AwaitDial_loop_retries (attempt : Nat → DialAttempt) (expired : Nat → Bool)
    (n i : Nat) (hcap : i + n ≤ 1001)
    (hexp : ∀ k, i ≤ k → k < i + n → expired k = false)
    (hretry : ∀ k, i < k → k ≤ i + n →
      ∃ err, attempt k = .failed err ∧ retryable err = true) :
    AwaitDial.loop attempt expired i = AwaitDial.loop attempt expired (i + n) := by
  induction n generalizing i with
  | zero => rfl
  | succ n ih =>
    obtain ⟨err, hatt, hr⟩ := hretry (i + 1) (by omega) (by omega)
    have hstep : AwaitDial.loop attempt expired i =
        AwaitDial.loop attempt expired (i + 1) := by
      rw [AwaitDial.loop]
      have hle : ¬ i > 1000 := by omega
      simp [hle, hexp i (Nat.le_refl i) (by omega), hatt, hr]
    rw [hstep, ih (i + 1) (by omega)
      (fun k h1 h2 => hexp k (by omega) (by omega))
      (fun k h1 h2 => hretry k (by omega) (by omega))]
    congr 1
    omega

/-- With 1001 attempts made the guard `i > 1000` ends the loop. -/
theorem AwaitDial_loop_cap (attempt : Nat → DialAttempt) (expired : Nat → Bool) :
    AwaitDial.loop attempt expired 1001 = (.error .tooManyTimes, 1001) := by
  rw [AwaitDial.loop]
  simp

/-- The loop entered with at most 1001 attempts made returns with at most 1001 made. -/
theorem AwaitDial_loop_attempts_le (attempt : Nat → DialAttempt) (expired : Nat → Bool)
    (n i : Nat) (hn : 1001 - i = n) (hi : i ≤ 1001) :
    (AwaitDial.loop attempt expired i).2 ≤ 1001 := by
  induction n generalizing i with
  | zero =>
    have h : i = 1001 := by omega
    rw [h, AwaitDial_loop_cap]
  | succ n ih =>
    rw [AwaitDial.loop]
    have hle : ¬ i > 1000 := by omega
    simp only [hle, if_false]
    cases hexp : expired i with
    | true => simpa using hi
    | false =>
      simp only [Bool.false_eq_true, if_false]
      cases hatt : attempt (i + 1) with
      | connected => simp only []; omega
      | failed err =>
        simp only []
        cases hr : retryable err with
        | true => simpa using ih (i + 1) (by omega) (by omega)
        | false => simp only [Bool.false_eq_true, if_false]; omega

/-- The sample refused-connection error is one that `AwaitDial` retries. -/
theorem sample_refused_retryable : retryable sample.refused = true := by
  decide

/-- C11 on the code: `AwaitDial` returns for every sequence of dial outcomes and every
deadline behaviour, having made at most 1001 connection attempts, and 1001 is reached.
When every attempt is refused and the deadline is never seen expired it returns the "tried
to connect too many times" error after 1001 attempts, not 1000; when the first 1000
attempts are refused and the next one is accepted it makes that 1001st attempt and
returns the connection. -/
theorem AwaitDial_makes_1001_attempts :
    (∀ (attempt : Nat → DialAttempt) (expired : Nat → Bool),
      (AwaitDial attempt expired).2 ≤ 1001) ∧
    AwaitDial sample.alwaysRefused sample.neverExpired = (.error .tooManyTimes, 1001) ∧
    AwaitDial sample.refusedThenUp sample.neverExpired = (.ok (), 1001) := by
  refine ⟨?_, ?_, ?_⟩
  · intro attempt expired
    exact AwaitDial_loop_attempts_le attempt expired 1001 0 rfl (by omega)
  · unfold AwaitDial
    rw [AwaitDial_loop_retries sample.alwaysRefused sample.neverExpired 1001 0 (by omega)
      (fun _ _ _ => rfl) (fun _ _ _ => ⟨sample.refused, rfl, sample_refused_retryable⟩)]
    exact AwaitDial_loop_cap _ _
  · unfold AwaitDial
    rw [AwaitDial_loop_retries sample.refusedThenUp sample.neverExpired 1000 0 (by omega)
      (fun _ _ _ => rfl)
      (fun k _ hk => ⟨sample.refused, by
        have hk2 : k ≤ 1000 := by omega
        simp [sample.refusedThenUp, hk2], sample_refused_retryable⟩)]
    rw [AwaitDial.loop]
    simp [sample.neverExpired, sample.refusedThenUp]

end customServer
